import Mathlib

/-!
Shallow embedding of the Windows trash backend (`src/windows.rs`) of the
`trash-rs` crate.

The backend talks to the Windows shell through COM.  Every OS call is
modelled by an environment record carrying the `HRESULT` the call would
return together with the data it would produce; the Rust control flow is
translated function by function.  Machine integers are modelled as `Nat`
(`HRESULT`, `u32`, `u64` values) and `Int` (`i64`), with explicit
`% 2 ^ 64` wrapping where the source casts between widths.  Wide
(UTF-16) strings are modelled as `List Nat` of code units.  Resource
acquisition and release (`CoTaskMemFree` on enumerated item ids,
`VariantClear` on property `VARIANT`s) is instrumented by threading a
counter state through the translated functions.
-/

namespace TrashWin

/-! ## HRESULT model -/

/-- The primary COM success code `S_OK` (numeric value 0). -/
def S_OK : Nat := 0

/-- Model of `HRESULT::is_err` of windows-rs 0.8: the severity bit (bit 31) is set. -/
def hresultIsErr (hr : Nat) : Bool := hr &&& 0x80000000 != 0

/-! ## Shell file-operation flags (`src/windows.rs` lines 55-68) -/

def FOF_SILENT : Nat := 0x0004
def FOF_RENAMEONCOLLISION : Nat := 0x0008
def FOF_NOCONFIRMATION : Nat := 0x0010
def FOF_ALLOWUNDO : Nat := 0x0040
def FOF_NOCONFIRMMKDIR : Nat := 0x0200
def FOF_NOERRORUI : Nat := 0x0400
def FOF_WANTNUKEWARNING : Nat := 0x4000

/-- Flag word `FOF_NO_UI` as defined in the source: silent, no confirmation,
no error UI, no mkdir confirmation. -/
def FOF_NO_UI : Nat := FOF_SILENT ||| FOF_NOCONFIRMATION ||| FOF_NOERRORUI ||| FOF_NOCONFIRMMKDIR

/-- The flag word passed to `SetOperationFlags` in `delete_all_canonicalized`
(line 118): `FOF_NO_UI | FOF_ALLOWUNDO | FOF_WANTNUKEWARNING`. -/
def deleteFlags : Nat := FOF_NO_UI ||| FOF_ALLOWUNDO ||| FOF_WANTNUKEWARNING

/-! ## Tick conversion (`windows_ticks_to_unix_seconds`, lines 321-327) -/

/-- Reduce an integer into the value range of a signed 64-bit word
(wrap-around as in a signed 64-bit register). -/
def wrap64 (z : Int) : Int := (z + 2 ^ 63) % 2 ^ 64 - 2 ^ 63

/-- Source function `windows_ticks_to_unix_seconds`: `(windows_ticks / WINDOWS_TICK) as i64
- SEC_TO_UNIX_EPOCH`, with the `u64 -> i64` cast and the `i64` subtraction
modelled by explicit wrap-around.  The argument is a `u64`,
modelled by reducing `% 2 ^ 64`. -/
def windows_ticks_to_unix_seconds (windows_ticks : Nat) : Int :=
  wrap64 (wrap64 (((windows_ticks % 2 ^ 64) / 10000000 : Nat) : Int) - 11644473600)

/-! ## Strings and errors -/

/-- Source function `wstr_to_os_string` (lines 224-231): scan a wide buffer up to the first
zero code unit and copy the units found into an `OsString`. -/
def wstr_to_os_string (buf : List Nat) : List Nat :=
  buf.takeWhile (fun u => u ≠ 0)

/-- Validity of a UTF-16 code-unit sequence: no unpaired surrogates.  This is
the condition under which `OsString::into_string` succeeds on Windows. -/
def utf16Valid : List Nat → Bool
  | [] => true
  | [u] => !(0xD800 ≤ u ∧ u ≤ 0xDFFF : Bool)
  | u :: v :: rest =>
    if 0xD800 ≤ u ∧ u ≤ 0xDBFF then
      (decide (0xDC00 ≤ v ∧ v ≤ 0xDFFF)) && utf16Valid rest
    else if 0xDC00 ≤ u ∧ u ≤ 0xDFFF then false
    else utf16Valid (v :: rest)

/-- Model of `OsString::into_string`: succeeds with the same contents when the code
units form valid UTF-16, otherwise hands back the original `OsString`. -/
def os_string_into_string (s : List Nat) : Except (List Nat) (List Nat) :=
  if utf16Valid s then .ok s else .error s

/-- The error type of the crate, as used by `src/windows.rs`:
`Error::Unknown` (the `PlatformError` of the spec) and `Error::ConvertOsString`
(the `InvalidName` of the spec, carrying the original name).  The `Error` enum
itself lives outside `src/`; `NotImplemented` is modelled from the spec:
the error surface in the spec lists a `NotImplemented` variant for the
unimplemented purge/restore operations. -/
inductive Error where
  | Unknown (description : String)
  | ConvertOsString (original : List Nat)
  | NotImplemented
  deriving DecidableEq

/-- Hexadecimal rendering of an `HRESULT` for error messages. -/
def hrString (hr : Nat) : String := String.mk (Nat.toDigits 16 hr)

/-- The error built by the `return_err_on_fail!` macro (lines 73-95):
`Error::Unknown` whose description names the failing call. -/
def mkFailErr (fname : String) (hr : Nat) : Error :=
  .Unknown ("`" ++ fname ++ "` failed with the result: " ++ hrString hr)

/-- The error message built at lines 161-168 when `EnumObjects` returns a
status other than `S_OK`. -/
def enumNotSOkMsg (hr : Nat) : String :=
  "`EnumObjects` returned with HRESULT " ++ hrString hr ++ ", but 0x0 was expected."

instance exceptDecEq {ε α : Type} [DecidableEq ε] [DecidableEq α] : DecidableEq (Except ε α)
  | .error a, .error b =>
    if h : a = b then .isTrue (by rw [h]) else .isFalse (fun hh => h (Except.error.inj hh))
  | .error _, .ok _ => .isFalse (fun hh => Except.noConfusion hh)
  | .ok _, .error _ => .isFalse (fun hh => Except.noConfusion hh)
  | .ok a, .ok b =>
    if h : a = b then .isTrue (by rw [h]) else .isFalse (fun hh => h (Except.ok.inj hh))

/-- The `TrashItem` record assembled by `list` (lines 183-188). -/
structure TrashItem where
  id : List Nat
  name : List Nat
  original_parent : List Nat
  time_deleted : Int
  deriving DecidableEq

/-! ## Instrumented resource state

Counts acquisitions and releases of the OS-owned resources named by the
resource claims: enumerated item ids (freed by the `defer`red
`CoTaskMemFree` at line 176) and property `VARIANT`s (cleared by the
scope guards at lines 241-243 and 260-262). -/

structure RState where
  acquired : Nat
  released : Nat
  deriving DecidableEq

/-! ## bind_to_csidl (lines 329-360) -/

/-- Environment for one `bind_to_csidl` call: the `HRESULT`s and outputs the
shell would produce. -/
structure BindEnv where
  sgsflHr : Nat
  sgdfHr : Nat
  desktopSome : Bool
  pidlCb : Nat
  bindToObjectHr : Nat
  castOk : Bool
  castErrMsg : String
  deriving DecidableEq

/-- Source function `bind_to_csidl`: resolve a special folder id, bind it under the desktop
folder, or cast the desktop itself when the resolved id is empty. -/
def bind_to_csidl (e : BindEnv) : Except Error Unit :=
  if hresultIsErr e.sgsflHr then .error (mkFailErr "SHGetSpecialFolderLocation" e.sgsflHr)
  else if hresultIsErr e.sgdfHr then .error (mkFailErr "SHGetDesktopFolder" e.sgdfHr)
  else if e.desktopSome = false then
    .error (.Unknown "`SHGetDesktopFolder` set its output to `None`.")
  else if e.pidlCb ≠ 0 then
    if hresultIsErr e.bindToObjectHr then .error (mkFailErr "BindToObject" e.bindToObjectHr)
    else .ok ()
  else if e.castOk then .ok ()
  else .error (.Unknown e.castErrMsg)

/-! ## get_display_name (lines 208-222) -/

/-- Source function `get_display_name`: `GetDisplayNameOf` then `StrRetToStrW`, decode the
returned wide buffer, free it, return the `OsString`.  `hr1`/`hr2` are the
results of the two calls and `buf` the wide buffer produced on success. -/
def get_display_name (hr1 hr2 : Nat) (buf : List Nat) : Except Error (List Nat) :=
  if hresultIsErr hr1 then .error (mkFailErr "GetDisplayNameOf" hr1)
  else if hresultIsErr hr2 then .error (mkFailErr "StrRetToStrW" hr2)
  else .ok (wstr_to_os_string buf)

/-! ## get_detail (lines 233-250) -/

/-- Environment for one `get_detail` call. -/
structure DetailEnv where
  getDetailsHr : Nat
  changeTypeHr : Nat
  bstrBuf : List Nat
  deriving DecidableEq

/-- Source function `get_detail`, instrumented: `GetDetailsEx` acquires a `VARIANT` on
success; the scope guard releases it on every exit path; `VariantChangeType`
coerces to `VT_BSTR`; the string value is decoded. -/
def get_detailR (d : DetailEnv) (st : RState) : Except Error (List Nat) × RState :=
  if hresultIsErr d.getDetailsHr then
    (.error (mkFailErr "GetDetailsEx" d.getDetailsHr), st)
  else
    let st1 : RState := { acquired := st.acquired + 1, released := st.released }
    if hresultIsErr d.changeTypeHr then
      (.error (mkFailErr "VariantChangeType" d.changeTypeHr),
        { acquired := st1.acquired, released := st1.released + 1 })
    else
      (.ok (wstr_to_os_string d.bstrBuf),
        { acquired := st1.acquired, released := st1.released + 1 })

/-! ## get_date_unix and variant_time_to_unix_time (lines 252-319) -/

/-- Environment for one `get_date_unix` call.  The intermediate `f64`
automation date and the `SYSTEMTIME` are abstracted away: the environment
gives the outcomes of `VariantTimeToSystemTime` (`0` means failure) and
`SystemTimeToFileTime`, and the two 32-bit halves of the resulting
`FILETIME`. -/
structure DateEnv where
  getDetailsHr : Nat
  changeTypeHr : Nat
  vttstRet : Nat
  sttftOk : Bool
  ftLow : Nat
  ftHigh : Nat
  deriving DecidableEq

/-- Source function `variant_time_to_unix_time`: convert the automation date to a
`SYSTEMTIME`, then to a `FILETIME`, reinterpret the two 32-bit parts as one
`u64` tick count, and convert ticks to Unix seconds. -/
def variant_time_to_unix_time (d : DateEnv) : Except Error Int :=
  if d.vttstRet = 0 then
    .error (.Unknown "`VariantTimeToSystemTime` indicated failure for the parameter")
  else if d.sttftOk = false then
    .error (.Unknown "`SystemTimeToFileTime` failed")
  else
    .ok (windows_ticks_to_unix_seconds (d.ftHigh % 2 ^ 32 * 2 ^ 32 + d.ftLow % 2 ^ 32))

/-- Source function `get_date_unix`, instrumented like `get_detailR`: acquire the `VARIANT`,
coerce to `VT_DATE`, convert the date, release the `VARIANT` on every exit
path. -/
def get_date_unixR (d : DateEnv) (st : RState) : Except Error Int × RState :=
  if hresultIsErr d.getDetailsHr then
    (.error (mkFailErr "GetDetailsEx" d.getDetailsHr), st)
  else
    let st1 : RState := { acquired := st.acquired + 1, released := st.released }
    if hresultIsErr d.changeTypeHr then
      (.error (mkFailErr "VariantChangeType" d.changeTypeHr),
        { acquired := st1.acquired, released := st1.released + 1 })
    else
      match variant_time_to_unix_time d with
      | .error e => (.error e, { acquired := st1.acquired, released := st1.released + 1 })
      | .ok t => (.ok t, { acquired := st1.acquired, released := st1.released + 1 })

/-! ## list (lines 145-192) -/

/-- Environment for processing one enumerated item inside the `list` loop:
the outcomes of the two `get_display_name` calls (`SHGDN_FORPARSING` and
`SHGDN_INFOLDER`), of `get_detail` for the original location, and of
`get_date_unix` for the deletion date. -/
structure ItemData where
  parseHr : Nat
  parseStrRetHr : Nat
  parseBuf : List Nat
  infolderHr : Nat
  infolderStrRetHr : Nat
  infolderBuf : List Nat
  detail : DetailEnv
  dateDetail : DateEnv
  deriving DecidableEq

/-- The body of the `while` loop of `list` for one enumerated item (lines
177-188): fetch the parse-form id, the in-folder name, the original
location and the deletion date, convert the name, assemble a `TrashItem`. -/
def processItemR (d : ItemData) (st : RState) : Except Error TrashItem × RState :=
  match get_display_name d.parseHr d.parseStrRetHr d.parseBuf with
  | .error e => (.error e, st)
  | .ok idStr =>
    match get_display_name d.infolderHr d.infolderStrRetHr d.infolderBuf with
    | .error e => (.error e, st)
    | .ok nameOs =>
      match get_detailR d.detail st with
      | (.error e, st2) => (.error e, st2)
      | (.ok origLoc, st2) =>
        match get_date_unixR d.dateDetail st2 with
        | (.error e, st3) => (.error e, st3)
        | (.ok dateDeleted, st3) =>
          match os_string_into_string nameOs with
          | .error original => (.error (.ConvertOsString original), st3)
          | .ok nameStr =>
            (.ok { id := idStr, name := nameStr, original_parent := origLoc,
                   time_deleted := dateDeleted }, st3)

/-- The `while peidl.Next(..) == S_OK` loop of `list` (lines 172-189).  Each
entry of `nexts` is one `Next` call: its `HRESULT` and, when it is `S_OK`,
the item data the shell would supply.  A status other than `S_OK` ends the
iteration; an exhausted list models the enumerator returning `S_FALSE`
forever.  A yielded item id is acquired on entry and released by the
`defer`red `CoTaskMemFree` on every exit path of the loop body. -/
def listLoopR : List (Nat × ItemData) → List TrashItem → RState →
    Except Error (List TrashItem) × RState
  | [], acc, st => (.ok acc, st)
  | (hr, d) :: rest, acc, st =>
    if hr = S_OK then
      let st1 : RState := { acquired := st.acquired + 1, released := st.released }
      match processItemR d st1 with
      | (.error e, st2) => (.error e, { acquired := st2.acquired, released := st2.released + 1 })
      | (.ok item, st2) =>
        listLoopR rest (acc ++ [item]) { acquired := st2.acquired, released := st2.released + 1 }
    else (.ok acc, st)

/-- Environment for one `list` call. -/
structure ListEnv where
  bind : BindEnv
  enumHr : Nat
  enumSome : Bool
  nexts : List (Nat × ItemData)

/-- Source function `list`, instrumented: bind to the recycle bin, request the enumerator
(`EnumObjects` must return exactly `S_OK` and must produce an enumerator),
then run the iteration loop. -/
def listR (env : ListEnv) (st : RState) : Except Error (List TrashItem) × RState :=
  match bind_to_csidl env.bind with
  | .error e => (.error e, st)
  | .ok _ =>
    if hresultIsErr env.enumHr then (.error (mkFailErr "EnumObjects" env.enumHr), st)
    else if env.enumHr ≠ S_OK then (.error (.Unknown (enumNotSOkMsg env.enumHr)), st)
    else if env.enumSome = false then
      (.error (.Unknown "`EnumObjects` set its output to None."), st)
    else listLoopR env.nexts [] st

/-- Source function `list` as the caller sees it: the returned value of the instrumented
run started with zero outstanding resources. -/
def list (env : ListEnv) : Except Error (List TrashItem) :=
  (listR env { acquired := 0, released := 0 }).1

/-! ## delete_all_canonicalized (lines 98-143) -/

/-- The extended-length path prefix `\\?\` as wide code units (line 120). -/
def pathPrefixU16 : List Nat := [92, 92, 63, 92]

/-- The null-terminated wide buffer passed to `SHCreateItemFromParsingName`
for one input path (lines 120-127): encode the path, append the terminating
zero, and strip a leading `\\?\` prefix when the resulting buffer starts
with one. -/
def cleanPathBuf (p : List Nat) : List Nat :=
  let container := p ++ [0]
  if pathPrefixU16.isPrefixOf container then container.drop pathPrefixU16.length
  else container

/-- Environment for one `delete_all_canonicalized` call: outcomes of the
fixed preparatory calls, and of the per-path `SHCreateItemFromParsingName`
and `DeleteItem` calls as functions of the wide buffer passed. -/
structure DeleteEnv where
  bind : BindEnv
  coCreateHr : Nat
  setFlagsHr : Nat
  resolveHr : List Nat → Nat
  deleteItemHr : List Nat → Nat
  performHr : Nat

/-- Observable trace of one `delete_all_canonicalized` run: the buffers
passed to `SHCreateItemFromParsingName`, the items passed to `DeleteItem`,
the flag words passed to `SetOperationFlags`, and how many times
`PerformOperations` ran. -/
structure DeleteTrace where
  resolveCalls : List (List Nat)
  addedItems : List (List Nat)
  flagsSet : List Nat
  performCount : Nat
  deriving DecidableEq

/-- The `for full_path in full_paths` loop (lines 119-139): clean the path,
resolve it to a shell item, add the item to the batched operation; any
failing call aborts the whole run. -/
def deleteLoop (env : DeleteEnv) : List (List Nat) → DeleteTrace →
    Except Error Unit × DeleteTrace
  | [], tr => (.ok (), tr)
  | p :: rest, tr =>
    let buf := cleanPathBuf p
    let tr1 : DeleteTrace := { tr with resolveCalls := tr.resolveCalls ++ [buf] }
    if hresultIsErr (env.resolveHr buf) then
      (.error (mkFailErr "SHCreateItemFromParsingName" (env.resolveHr buf)), tr1)
    else
      let tr2 : DeleteTrace := { tr1 with addedItems := tr1.addedItems ++ [buf] }
      if hresultIsErr (env.deleteItemHr buf) then
        (.error (mkFailErr "DeleteItem" (env.deleteItemHr buf)), tr2)
      else deleteLoop env rest tr2

/-- The final `PerformOperations` call of `delete_all_canonicalized`
(line 140), applied to the outcome of the add loop: when the loop failed
its error is passed through; otherwise `PerformOperations` runs once. -/
def performOperationsStage (env : DeleteEnv) (r : Except Error Unit × DeleteTrace) :
    Except Error Unit × DeleteTrace :=
  match r with
  | (.error e, tr) => (.error e, tr)
  | (.ok _, tr) =>
    let tr2 : DeleteTrace := { tr with performCount := tr.performCount + 1 }
    if hresultIsErr env.performHr then
      (.error (mkFailErr "PerformOperations" env.performHr), tr2)
    else (.ok (), tr2)

/-- Source function `delete_all_canonicalized`, instrumented: bind to the recycle bin,
create the `IFileOperation`, set the fixed flag word, add every path, then
execute the batch once. -/
def delete_all_canonicalizedR (env : DeleteEnv) (full_paths : List (List Nat)) :
    Except Error Unit × DeleteTrace :=
  let tr0 : DeleteTrace := { resolveCalls := [], addedItems := [], flagsSet := [], performCount := 0 }
  match bind_to_csidl env.bind with
  | .error e => (.error e, tr0)
  | .ok _ =>
    if hresultIsErr env.coCreateHr then (.error (mkFailErr "CoCreateInstance" env.coCreateHr), tr0)
    else
      let tr1 : DeleteTrace := { tr0 with flagsSet := tr0.flagsSet ++ [deleteFlags] }
      if hresultIsErr env.setFlagsHr then
        (.error (mkFailErr "SetOperationFlags" env.setFlagsHr), tr1)
      else performOperationsStage env (deleteLoop env full_paths tr1)

/-- The caller-visible result of `delete_all_canonicalized`. -/
def delete_all_canonicalized (env : DeleteEnv) (full_paths : List (List Nat)) :
    Except Error Unit :=
  (delete_all_canonicalizedR env full_paths).1

/-! ## purge_all and restore_all (lines 194-206) -/

/-- The outcome of calling a Rust function that may panic instead of
returning. -/
inductive RustOutcome (α : Type) where
  | ok (value : α)
  | panicked (msg : String)
  deriving DecidableEq

/-- Source function `purge_all` (lines 194-199): the body is `todo!()`, which panics with
the message "not yet implemented" before any item is examined. -/
def purge_all (_items : List TrashItem) : RustOutcome (Except Error Unit) :=
  .panicked "not yet implemented"

/-- Source function `restore_all` (lines 201-206): the body is `todo!()`, which panics with
the message "not yet implemented" before any item is examined. -/
def restore_all (_items : List TrashItem) : RustOutcome (Except Error Unit) :=
  .panicked "not yet implemented"

/-! ## Derived views used by the theorems -/

/-- The value computed by one loop body, independent of the resource
counters. -/
def extractItem (d : ItemData) : Except Error TrashItem :=
  (processItemR d { acquired := 0, released := 0 }).1

/-- The item data yielded by the enumerator before its first `Next` call
returning a status other than `S_OK`. -/
def yieldedItems (nexts : List (Nat × ItemData)) : List ItemData :=
  (nexts.takeWhile (fun p => p.1 == S_OK)).map (fun p => p.2)

/-- Process a sequence of yielded items in order; succeeds with the full
`TrashItem` list only when every single item processes successfully. -/
def extractAll : List ItemData → Option (List TrashItem)
  | [] => some []
  | d :: ds =>
    match extractItem d with
    | .error _ => none
    | .ok item =>
      match extractAll ds with
      | none => none
      | some tl => some (item :: tl)

/-! ## Concrete test environments for the witnesses -/

/-- A bind environment in which every shell call succeeds. -/
def okBind : BindEnv :=
  { sgsflHr := 0, sgdfHr := 0, desktopSome := true, pidlCb := 20,
    bindToObjectHr := 0, castOk := true, castErrMsg := "" }

/-- A detail environment holding the original location `C:\`. -/
def okDetail : DetailEnv := { getDetailsHr := 0, changeTypeHr := 0, bstrBuf := [67, 58, 92, 0] }

/-- A date environment in which all conversions succeed with tick count 0. -/
def okDate : DateEnv :=
  { getDetailsHr := 0, changeTypeHr := 0, vttstRet := 1, sttftOk := true, ftLow := 0, ftHigh := 0 }

/-- Item data for which every per-item stage succeeds; both display names
read `doc`. -/
def itemOkData : ItemData :=
  { parseHr := 0, parseStrRetHr := 0, parseBuf := [100, 111, 99, 0],
    infolderHr := 0, infolderStrRetHr := 0, infolderBuf := [100, 111, 99, 0],
    detail := okDetail, dateDetail := okDate }

/-- Item data whose in-folder display name is an unpaired surrogate,
hence not representable as a portable string. -/
def itemBadName : ItemData :=
  { parseHr := 0, parseStrRetHr := 0, parseBuf := [100, 111, 99, 0],
    infolderHr := 0, infolderStrRetHr := 0, infolderBuf := [0xD800, 0],
    detail := okDetail, dateDetail := okDate }

/-- List environment whose `EnumObjects` returns `S_FALSE` (1), a secondary
success code. -/
def envEnumSFalse : ListEnv := { bind := okBind, enumHr := 1, enumSome := true, nexts := [] }

/-- List environment whose only `Next` call returns the failure code
`E_FAIL`. -/
def envNextFail : ListEnv :=
  { bind := okBind, enumHr := 0, enumSome := true, nexts := [(0x80004005, itemOkData)] }

/-- List environment yielding one well-formed item and then ending. -/
def envOneItem : ListEnv :=
  { bind := okBind, enumHr := 0, enumSome := true, nexts := [(0, itemOkData), (1, itemOkData)] }

/-- List environment yielding one item whose name is invalid. -/
def envBadName : ListEnv :=
  { bind := okBind, enumHr := 0, enumSome := true, nexts := [(0, itemBadName)] }

/-- Three concrete input paths `a`, `b`, `c`. -/
def paths3 : List (List Nat) := [[97], [98], [99]]

/-- A delete environment in which every call succeeds. -/
def envDeleteOk : DeleteEnv :=
  { bind := okBind, coCreateHr := 0, setFlagsHr := 0,
    resolveHr := fun _ => 0, deleteItemHr := fun _ => 0, performHr := 0 }

/-- A delete environment in which resolving the second path (`b`) fails
with `ERROR_FILE_NOT_FOUND` as an `HRESULT`. -/
def envDeleteFail2 : DeleteEnv :=
  { bind := okBind, coCreateHr := 0, setFlagsHr := 0,
    resolveHr := fun buf => if buf = [98, 0] then 0x80070002 else 0,
    deleteItemHr := fun _ => 0, performHr := 0 }

/-! ## Theorems for claim C1 -/

theorem wrap64_eq_self (z : Int) (h1 : -(2 ^ 63) ≤ z) (h2 : z < 2 ^ 63) : wrap64 z = z := by
  unfold wrap64
  omega

/-- Claim C1: for every 64-bit unsigned tick count `t`,
`windows_ticks_to_unix_seconds t` equals truncating division of `t` by
`10000000` minus `11644473600` (the signed 64-bit arithmetic never wraps in
this range), and at the epoch boundary `116444736000000000` the result is 0. -/
theorem windows_ticks_to_unix_seconds_spec :
    (∀ t : Nat, t < 2 ^ 64 →
      windows_ticks_to_unix_seconds t = ((t / 10000000 : Nat) : Int) - 11644473600) ∧
    windows_ticks_to_unix_seconds 116444736000000000 = 0 := by
  constructor
  · intro t ht
    unfold windows_ticks_to_unix_seconds
    have hmod : t % 2 ^ 64 = t := Nat.mod_eq_of_lt ht
    rw [hmod]
    have hq : t / 10000000 < 2 ^ 63 := by
      apply Nat.div_lt_of_lt_mul
      calc t < 2 ^ 64 := ht
        _ ≤ 2 ^ 63 * 10000000 := by norm_num
    have hq0 : (0 : Int) ≤ ((t / 10000000 : Nat) : Int) := Int.ofNat_nonneg _
    have hqlt : ((t / 10000000 : Nat) : Int) < 2 ^ 63 := by exact_mod_cast hq
    rw [wrap64_eq_self _ (by omega) hqlt]
    rw [wrap64_eq_self _ (by omega) (by omega)]
  · have h := Nat.mod_eq_of_lt (show 116444736000000000 < 2 ^ 64 by norm_num)
    unfold windows_ticks_to_unix_seconds
    rw [h]
    norm_num [wrap64]

/-- Witness for C1: the first conjunct applied at the concrete boundary input. -/
theorem windows_ticks_to_unix_seconds_spec_witness :
    windows_ticks_to_unix_seconds 116444736000000000 =
      ((116444736000000000 / 10000000 : Nat) : Int) - 11644473600 :=
  windows_ticks_to_unix_seconds_spec.1 116444736000000000 (by norm_num)

/-! ## Value/state independence lemmas -/

theorem get_detailR_fst (d : DetailEnv) (st st2 : RState) :
    (get_detailR d st).1 = (get_detailR d st2).1 := by
  simp only [get_detailR]
  split_ifs <;> rfl

theorem get_date_unixR_fst (d : DateEnv) (st st2 : RState) :
    (get_date_unixR d st).1 = (get_date_unixR d st2).1 := by
  simp only [get_date_unixR]
  split_ifs <;> first | rfl | (cases variant_time_to_unix_time d <;> rfl)

theorem processItemR_fst (d : ItemData) (st st2 : RState) :
    (processItemR d st).1 = (processItemR d st2).1 := by
  simp only [processItemR]
  cases get_display_name d.parseHr d.parseStrRetHr d.parseBuf <;> try rfl
  cases get_display_name d.infolderHr d.infolderStrRetHr d.infolderBuf <;> try rfl
  have hdet := get_detailR_fst d.detail st st2
  rcases hA : get_detailR d.detail st with ⟨resA, stA⟩
  rcases hB : get_detailR d.detail st2 with ⟨resB, stB⟩
  rw [hA, hB] at hdet
  simp only at hdet
  subst hdet
  cases resA with
  | error e => rfl
  | ok origLoc =>
    have hdat := get_date_unixR_fst d.dateDetail stA stB
    rcases hC : get_date_unixR d.dateDetail stA with ⟨resC, stC⟩
    rcases hD : get_date_unixR d.dateDetail stB with ⟨resD, stD⟩
    rw [hC, hD] at hdat
    simp only at hdat
    subst hdat
    simp only [hC, hD]
    cases resC with
    | error e => rfl
    | ok t => cases os_string_into_string _ <;> rfl

/-! ## Resource-counter lemmas -/

theorem get_detailR_balance (d : DetailEnv) (st : RState) :
    ∃ k, (get_detailR d st).2 =
      { acquired := st.acquired + k, released := st.released + k } := by
  simp only [get_detailR]
  split_ifs
  · exact ⟨0, rfl⟩
  · exact ⟨1, rfl⟩
  · exact ⟨1, rfl⟩

theorem get_date_unixR_balance (d : DateEnv) (st : RState) :
    ∃ k, (get_date_unixR d st).2 =
      { acquired := st.acquired + k, released := st.released + k } := by
  simp only [get_date_unixR]
  split_ifs
  · exact ⟨0, rfl⟩
  · exact ⟨1, rfl⟩
  · cases variant_time_to_unix_time d <;> exact ⟨1, rfl⟩

theorem processItemR_balance (d : ItemData) (st : RState) :
    ∃ k, (processItemR d st).2 =
      { acquired := st.acquired + k, released := st.released + k } := by
  simp only [processItemR]
  cases get_display_name d.parseHr d.parseStrRetHr d.parseBuf
  · exact ⟨0, rfl⟩
  cases get_display_name d.infolderHr d.infolderStrRetHr d.infolderBuf
  · exact ⟨0, rfl⟩
  obtain ⟨k1, hk1⟩ := get_detailR_balance d.detail st
  rcases hA : get_detailR d.detail st with ⟨resA, stA⟩
  rw [hA] at hk1
  simp only at hk1
  simp only [hA]
  cases resA with
  | error e => exact ⟨k1, hk1⟩
  | ok origLoc =>
    obtain ⟨k2, hk2⟩ := get_date_unixR_balance d.dateDetail stA
    rcases hC : get_date_unixR d.dateDetail stA with ⟨resC, stC⟩
    rw [hC] at hk2
    simp only at hk2
    subst hk1
    simp only [hC]
    cases resC with
    | error e =>
      refine ⟨k1 + k2, ?_⟩
      simp only [hk2]
      congr 1 <;> omega
    | ok t =>
      cases os_string_into_string _ with
      | error original =>
        refine ⟨k1 + k2, ?_⟩
        simp only [hk2]
        congr 1 <;> omega
      | ok nameStr =>
        refine ⟨k1 + k2, ?_⟩
        simp only [hk2]
        congr 1 <;> omega

theorem listLoopR_balance (nexts : List (Nat × ItemData)) :
    ∀ (acc : List TrashItem) (st : RState),
      ∃ k, (listLoopR nexts acc st).2 =
        { acquired := st.acquired + k, released := st.released + k } := by
  induction nexts with
  | nil => intro acc st; exact ⟨0, rfl⟩
  | cons head rest ih =>
    obtain ⟨hr, d⟩ := head
    intro acc st
    by_cases hhr : hr = S_OK
    · simp only [listLoopR, if_pos hhr]
      obtain ⟨k1, hk1⟩ :=
        processItemR_balance d { acquired := st.acquired + 1, released := st.released }
      rcases hp : processItemR d { acquired := st.acquired + 1, released := st.released }
        with ⟨res, stp⟩
      rw [hp] at hk1
      simp only at hk1
      subst hk1
      cases res with
      | error e =>
        refine ⟨k1 + 1, ?_⟩
        simp only
        congr 1
        omega
      | ok item =>
        obtain ⟨k2, hk2⟩ := ih (acc ++ [item])
          { acquired := st.acquired + 1 + k1, released := st.released + k1 + 1 }
        refine ⟨1 + k1 + k2, ?_⟩
        simp only [hk2]
        congr 1 <;> omega
    · simp only [listLoopR, if_neg hhr]
      exact ⟨0, rfl⟩

/-- Claim C6: every instrumented resource (enumerated item ids, property
`VARIANT`s in `get_detail` and `get_date_unix`) is released exactly as often
as it is acquired, on every exit path: each instrumented function adds the
same count to acquisitions and releases, and a full `list` run starting
with zero outstanding resources ends with zero outstanding resources. -/
theorem resource_release_balanced :
    (∀ (d : DetailEnv) (st : RState), ∃ k,
        (get_detailR d st).2 = { acquired := st.acquired + k, released := st.released + k }) ∧
    (∀ (d : DateEnv) (st : RState), ∃ k,
        (get_date_unixR d st).2 = { acquired := st.acquired + k, released := st.released + k }) ∧
    (∀ env : ListEnv,
        (listR env { acquired := 0, released := 0 }).2.acquired =
          (listR env { acquired := 0, released := 0 }).2.released) := by
  refine ⟨get_detailR_balance, get_date_unixR_balance, ?_⟩
  intro env
  simp only [listR]
  cases bind_to_csidl env.bind
  · rfl
  simp only
  split_ifs
  · rfl
  · rfl
  · rfl
  · obtain ⟨k, hk⟩ := listLoopR_balance env.nexts [] { acquired := 0, released := 0 }
    rw [hk]

/-! ## Completeness of list results (claim C5) -/

theorem listLoopR_ok_complete (nexts : List (Nat × ItemData)) :
    ∀ (acc : List TrashItem) (st : RState) (items : List TrashItem) (st2 : RState),
      listLoopR nexts acc st = (.ok items, st2) →
      ∃ tail, items = acc ++ tail ∧ extractAll (yieldedItems nexts) = some tail := by
  induction nexts with
  | nil =>
    intro acc st items st2 h
    simp only [listLoopR, Prod.mk.injEq, Except.ok.injEq] at h
    exact ⟨[], by simp [h.1], rfl⟩
  | cons head rest ih =>
    obtain ⟨hr, d⟩ := head
    intro acc st items st2 h
    by_cases hhr : hr = S_OK
    · simp only [listLoopR, if_pos hhr] at h
      rcases hp : processItemR d { acquired := st.acquired + 1, released := st.released }
        with ⟨res, stp⟩
      rw [hp] at h
      cases res with
      | error e => simp at h
      | ok item =>
        simp only at h
        obtain ⟨tail, htail, hmap⟩ := ih (acc ++ [item])
          { acquired := stp.acquired, released := stp.released + 1 } items st2 h
        refine ⟨item :: tail, by simp [htail], ?_⟩
        have hx : extractItem d = .ok item := by
          have := processItemR_fst d { acquired := 0, released := 0 }
            { acquired := st.acquired + 1, released := st.released }
          rw [hp] at this
          simpa [extractItem] using this
        have hcons : yieldedItems ((hr, d) :: rest) = d :: yieldedItems rest := by
          simp [yieldedItems, List.takeWhile, hhr]
        rw [hcons]
        simp only [extractAll, hx, hmap]
    · simp only [listLoopR, if_neg hhr, Prod.mk.injEq, Except.ok.injEq] at h
      refine ⟨[], by simp [h.1], ?_⟩
      have hnil : yieldedItems ((hr, d) :: rest) = [] := by
        have : (hr == S_OK) = false := by simp [hhr]
        simp [yieldedItems, List.takeWhile, this]
      rw [hnil]
      rfl

/-- Claim C5: listing is all-or-nothing.  Whenever `list` returns `ok`,
every item the enumerator yielded was processed successfully and the
returned list is exactly the processed items in enumeration order; a
failure while fetching an id, a name, the original location, the deletion
date, or while converting the name, therefore always surfaces as an error
result, never as a truncated item list. -/
theorem list_ok_complete (env : ListEnv) (items : List TrashItem)
    (h : list env = .ok items) :
    extractAll (yieldedItems env.nexts) = some items := by
  unfold list listR at h
  rcases hb : bind_to_csidl env.bind with e | u
  · rw [hb] at h; simp at h
  rw [hb] at h
  simp only at h
  split_ifs at h
  have h2 : listLoopR env.nexts [] { acquired := 0, released := 0 } =
      (.ok items, (listLoopR env.nexts [] { acquired := 0, released := 0 }).2) := by
    rw [← h]
  obtain ⟨tail, htail, hmap⟩ :=
    listLoopR_ok_complete env.nexts [] { acquired := 0, released := 0 } items _ h2
  simpa [htail] using hmap

/-- Witness for C5: on a concrete environment yielding one well-formed item,
`list` returns `ok` and the returned list is the complete processed
sequence. -/
theorem list_ok_complete_witness :
    extractAll (yieldedItems envOneItem.nexts) =
      some [{ id := [100, 111, 99], name := [100, 111, 99], original_parent := [67, 58, 92],
              time_deleted := -11644473600 }] :=
  list_ok_complete envOneItem _ (by decide)

/-! ## Claim C2: enumeration success-code strictness -/

/-- Claim C2: when `EnumObjects` returns any status other than `S_OK` —
including secondary success codes such as `S_FALSE` — `list` returns a
platform error (`Error::Unknown`) and yields no items. -/
theorem list_enum_strict (env : ListEnv)
    (hb : bind_to_csidl env.bind = .ok ()) (hne : env.enumHr ≠ S_OK) :
    list env = .error (if hresultIsErr env.enumHr then mkFailErr "EnumObjects" env.enumHr
      else .Unknown (enumNotSOkMsg env.enumHr)) := by
  unfold list listR
  rw [hb]
  simp only
  by_cases he : hresultIsErr env.enumHr
  · simp [he]
  · simp [he, hne]

/-- Witness for C2: `EnumObjects` returning the secondary success code
`S_FALSE` (1) makes `list` fail with the strictness error. -/
theorem list_enum_strict_witness :
    list envEnumSFalse =
      .error (if hresultIsErr envEnumSFalse.enumHr then
          mkFailErr "EnumObjects" envEnumSFalse.enumHr
        else .Unknown (enumNotSOkMsg envEnumSFalse.enumHr)) :=
  list_enum_strict envEnumSFalse (by decide) (by decide)

/-! ## Claim C10: a Next status other than S_OK ends iteration successfully -/

/-- Claim C10: any `Next` call returning a status other than `S_OK` —
failure codes included — ends the iteration, and `list` returns `ok` with
the items gathered so far; a mid-iteration enumerator failure is never
surfaced as an error. -/
theorem list_next_not_sok_ends_iteration :
    (∀ (hr : Nat) (d : ItemData) (rest : List (Nat × ItemData)) (acc : List TrashItem)
        (st : RState), hr ≠ S_OK → listLoopR ((hr, d) :: rest) acc st = (.ok acc, st)) ∧
    (∀ (env : ListEnv) (hr : Nat) (d : ItemData) (rest : List (Nat × ItemData)),
        bind_to_csidl env.bind = .ok () → env.enumHr = S_OK → env.enumSome = true →
        env.nexts = (hr, d) :: rest → hr ≠ S_OK → list env = .ok []) := by
  constructor
  · intro hr d rest acc st hhr
    simp [listLoopR, hhr]
  · intro env hr d rest hb he hs hn hhr
    unfold list listR
    rw [hb]
    have hok : hresultIsErr S_OK = false := by decide
    simp only [he, hs, hn, hok]
    simp [listLoopR, hhr]

/-- Witness for C10: a `Next` call failing with `E_FAIL` ends the loop with
the items gathered so far and `list` reports success. -/
theorem list_next_not_sok_ends_iteration_witness :
    listLoopR [(0x80004005, itemOkData)] [] { acquired := 0, released := 0 } =
      (.ok [], { acquired := 0, released := 0 }) ∧
    list envNextFail = .ok [] :=
  ⟨list_next_not_sok_ends_iteration.1 0x80004005 itemOkData [] []
      { acquired := 0, released := 0 } (by decide),
   list_next_not_sok_ends_iteration.2 envNextFail 0x80004005 itemOkData [] (by decide)
      rfl rfl rfl (by decide)⟩

/-! ## Claim C9: invalid display names are reported, not skipped -/

/-- Claim C9: when all stages of the first enumerated item succeed but its
in-folder display name is not representable as a portable string, `list`
returns `Error::ConvertOsString` (the `InvalidName` of the spec) carrying the
original raw name, rather than skipping the item. -/
theorem list_invalid_name (env : ListEnv) (d : ItemData) (rest : List (Nat × ItemData))
    (hb : bind_to_csidl env.bind = .ok ())
    (he : env.enumHr = S_OK) (hs : env.enumSome = true)
    (hn : env.nexts = (S_OK, d) :: rest)
    (h1 : hresultIsErr d.parseHr = false) (h2 : hresultIsErr d.parseStrRetHr = false)
    (h3 : hresultIsErr d.infolderHr = false) (h4 : hresultIsErr d.infolderStrRetHr = false)
    (h5 : hresultIsErr d.detail.getDetailsHr = false)
    (h6 : hresultIsErr d.detail.changeTypeHr = false)
    (h7 : hresultIsErr d.dateDetail.getDetailsHr = false)
    (h8 : hresultIsErr d.dateDetail.changeTypeHr = false)
    (h9 : d.dateDetail.vttstRet ≠ 0) (h10 : d.dateDetail.sttftOk = true)
    (hinv : utf16Valid (wstr_to_os_string d.infolderBuf) = false) :
    list env = .error (.ConvertOsString (wstr_to_os_string d.infolderBuf)) := by
  unfold list listR
  rw [hb]
  have hok : hresultIsErr S_OK = false := by decide
  simp only [he, hs, hn, hok]
  simp [listLoopR, processItemR, get_display_name, get_detailR,
    get_date_unixR, variant_time_to_unix_time, os_string_into_string,
    h1, h2, h3, h4, h5, h6, h7, h8, h9, h10, hinv]

/-- Witness for C9: a concrete item whose in-folder name is an unpaired
surrogate makes `list` fail with `ConvertOsString` carrying that name. -/
theorem list_invalid_name_witness :
    list envBadName = .error (.ConvertOsString (wstr_to_os_string itemBadName.infolderBuf)) :=
  list_invalid_name envBadName itemBadName [] (by decide) rfl rfl rfl (by decide) (by decide)
    (by decide) (by decide) (by decide) (by decide) (by decide) (by decide) (by decide)
    (by decide) (by decide)

/-! ## Lemmas about the delete loop -/

theorem deleteLoop_performCount (env : DeleteEnv) :
    ∀ (paths : List (List Nat)) (tr : DeleteTrace),
      (deleteLoop env paths tr).2.performCount = tr.performCount := by
  intro paths
  induction paths with
  | nil => intro tr; rfl
  | cons p rest ih =>
    intro tr
    simp only [deleteLoop]
    split_ifs
    · rfl
    · rfl
    · exact ih _

theorem deleteLoop_flagsSet (env : DeleteEnv) :
    ∀ (paths : List (List Nat)) (tr : DeleteTrace),
      (deleteLoop env paths tr).2.flagsSet = tr.flagsSet := by
  intro paths
  induction paths with
  | nil => intro tr; rfl
  | cons p rest ih =>
    intro tr
    simp only [deleteLoop]
    split_ifs
    · rfl
    · rfl
    · exact ih _

theorem deleteLoop_resolveCalls (env : DeleteEnv) :
    ∀ (paths : List (List Nat)) (tr : DeleteTrace), ∃ n,
      (deleteLoop env paths tr).2.resolveCalls =
        tr.resolveCalls ++ (paths.take n).map cleanPathBuf := by
  intro paths
  induction paths with
  | nil => intro tr; exact ⟨0, by simp [deleteLoop]⟩
  | cons p rest ih =>
    intro tr
    simp only [deleteLoop]
    split_ifs
    · exact ⟨1, by simp⟩
    · exact ⟨1, by simp⟩
    · obtain ⟨n, hn⟩ := ih { tr with
        resolveCalls := tr.resolveCalls ++ [cleanPathBuf p],
        addedItems := tr.addedItems ++ [cleanPathBuf p] }
      refine ⟨n + 1, ?_⟩
      rw [hn]
      simp

theorem deleteLoop_ok_all_added (env : DeleteEnv) :
    ∀ (paths : List (List Nat)) (tr tr2 : DeleteTrace),
      deleteLoop env paths tr = (.ok (), tr2) →
      tr2.addedItems = tr.addedItems ++ paths.map cleanPathBuf ∧
        tr2.resolveCalls = tr.resolveCalls ++ paths.map cleanPathBuf := by
  intro paths
  induction paths with
  | nil =>
    intro tr tr2 h
    simp only [deleteLoop, Prod.mk.injEq] at h
    simp [← h.2]
  | cons p rest ih =>
    intro tr tr2 h
    simp only [deleteLoop] at h
    split_ifs at h
    · simp at h
    · simp at h
    · obtain ⟨ha, hr⟩ := ih _ _ h
      constructor
      · rw [ha]; simp
      · rw [hr]; simp

theorem deleteLoop_resolve_fail (env : DeleteEnv) :
    ∀ (paths : List (List Nat)) (tr : DeleteTrace) (i : Nat) (hi : i < paths.length),
      (∀ j (hj : j < paths.length), j < i →
          hresultIsErr (env.resolveHr (cleanPathBuf (paths.get ⟨j, hj⟩))) = false ∧
          hresultIsErr (env.deleteItemHr (cleanPathBuf (paths.get ⟨j, hj⟩))) = false) →
      hresultIsErr (env.resolveHr (cleanPathBuf (paths.get ⟨i, hi⟩))) = true →
      (deleteLoop env paths tr).1 =
        .error (mkFailErr "SHCreateItemFromParsingName"
          (env.resolveHr (cleanPathBuf (paths.get ⟨i, hi⟩)))) := by
  intro paths
  induction paths with
  | nil => intro tr i hi; exact absurd hi (by simp)
  | cons p rest ih =>
    intro tr i hi hprev hfail
    cases i with
    | zero =>
      simp only [List.get] at hfail
      simp only [deleteLoop, hfail]
      simp
    | succ i =>
      have h0 := hprev 0 (by simp) (by omega)
      simp only [List.get] at h0
      simp only [deleteLoop, h0.1, h0.2]
      simp only [Bool.false_eq_true, if_false]
      have hi2 : i < rest.length := by simpa using hi
      exact ih _ i hi2
        (fun j hj hji => hprev (j + 1) (by simpa using hj) (by omega))
        (by simpa using hfail)

theorem performOperationsStage_fields (env : DeleteEnv) (r : Except Error Unit × DeleteTrace) :
    (performOperationsStage env r).2.resolveCalls = r.2.resolveCalls ∧
    (performOperationsStage env r).2.addedItems = r.2.addedItems ∧
    (performOperationsStage env r).2.flagsSet = r.2.flagsSet := by
  rcases r with ⟨res, tr⟩
  cases res with
  | error e => exact ⟨rfl, rfl, rfl⟩
  | ok u =>
    simp only [performOperationsStage]
    split_ifs
    · exact ⟨rfl, rfl, rfl⟩
    · exact ⟨rfl, rfl, rfl⟩

theorem performOperationsStage_ok (env : DeleteEnv) (r : Except Error Unit × DeleteTrace)
    (tr2 : DeleteTrace) (h : performOperationsStage env r = (.ok (), tr2)) :
    ∃ tr, r = (.ok (), tr) ∧ tr2 = { tr with performCount := tr.performCount + 1 } := by
  rcases r with ⟨res, tr⟩
  cases res with
  | error e => simp [performOperationsStage] at h
  | ok u =>
    simp only [performOperationsStage] at h
    split_ifs at h
    · simp at h
    · simp only [Prod.mk.injEq] at h
      exact ⟨tr, rfl, h.2.symm⟩

/-! ## Claim C4: extended-length prefix stripping -/

/-- Claim C4: the null-terminated buffer handed to
`SHCreateItemFromParsingName` is byte-identical to the input path with the
4-unit `\\?\` prefix removed when the path starts with it, and to the
unchanged path otherwise; and every buffer `delete_all_canonicalized` hands
to resolution is `cleanPathBuf` of a prefix of the input paths, in order. -/
theorem clean_path_strips_extended_length :
    (∀ p : List Nat, cleanPathBuf p =
        (if pathPrefixU16.isPrefixOf p then p.drop 4 else p) ++ [0]) ∧
    (∀ (env : DeleteEnv) (paths : List (List Nat)), ∃ n,
        (delete_all_canonicalizedR env paths).2.resolveCalls =
          (paths.take n).map cleanPathBuf) := by
  constructor
  · intro p
    match p with
    | [] => rfl
    | [a] =>
      simp only [cleanPathBuf, pathPrefixU16, List.cons_append, List.nil_append,
        List.isPrefixOf, Bool.and_false, Bool.and_true]
      simp
    | [a, b] =>
      simp only [cleanPathBuf, pathPrefixU16, List.cons_append, List.nil_append,
        List.isPrefixOf, Bool.and_false, Bool.and_true]
      simp
    | [a, b, c] =>
      simp only [cleanPathBuf, pathPrefixU16, List.cons_append, List.nil_append,
        List.isPrefixOf, Bool.and_false, Bool.and_true]
      simp
    | a :: b :: c :: e :: rest =>
      simp only [cleanPathBuf, pathPrefixU16, List.cons_append,
        List.isPrefixOf, List.isPrefixOf_nil_left, Bool.and_true]
      split_ifs with h
      · simp [List.drop]
      · rfl
  · intro env paths
    unfold delete_all_canonicalizedR
    rcases hb : bind_to_csidl env.bind with e | u
    · simp only [hb]; exact ⟨0, rfl⟩
    simp only [hb, List.nil_append]
    split_ifs
    · exact ⟨0, rfl⟩
    · exact ⟨0, rfl⟩
    obtain ⟨n, hn⟩ := deleteLoop_resolveCalls env paths
      { resolveCalls := [], addedItems := [], flagsSet := [deleteFlags], performCount := 0 }
    refine ⟨n, ?_⟩
    rw [(performOperationsStage_fields env _).1]
    simpa using hn

/-! ## Claim C3: one batched operation, aborted before execution on
resolution failure -/

/-- Claim C3: when `delete_all_canonicalized` succeeds it has added every
cleaned path to the single batched operation and run `PerformOperations`
exactly once, after all additions; when resolving the `i`-th path fails
(all earlier per-path calls succeeding), `PerformOperations` is never run
and the call returns the platform error naming
`SHCreateItemFromParsingName`. -/
theorem delete_all_one_batch :
    (∀ (env : DeleteEnv) (paths : List (List Nat)) (tr : DeleteTrace),
        delete_all_canonicalizedR env paths = (.ok (), tr) →
        tr.performCount = 1 ∧ tr.addedItems = paths.map cleanPathBuf) ∧
    (∀ (env : DeleteEnv) (paths : List (List Nat)) (i : Nat) (hi : i < paths.length),
        bind_to_csidl env.bind = .ok () →
        hresultIsErr env.coCreateHr = false →
        hresultIsErr env.setFlagsHr = false →
        (∀ j (hj : j < paths.length), j < i →
            hresultIsErr (env.resolveHr (cleanPathBuf (paths.get ⟨j, hj⟩))) = false ∧
            hresultIsErr (env.deleteItemHr (cleanPathBuf (paths.get ⟨j, hj⟩))) = false) →
        hresultIsErr (env.resolveHr (cleanPathBuf (paths.get ⟨i, hi⟩))) = true →
        (delete_all_canonicalizedR env paths).2.performCount = 0 ∧
        (delete_all_canonicalizedR env paths).1 =
          .error (mkFailErr "SHCreateItemFromParsingName"
            (env.resolveHr (cleanPathBuf (paths.get ⟨i, hi⟩))))) := by
  constructor
  · intro env paths tr h
    unfold delete_all_canonicalizedR at h
    rcases hb : bind_to_csidl env.bind with e | u
    · simp only [hb] at h; simp at h
    simp only [hb, List.nil_append] at h
    split_ifs at h
    · simp at h
    · simp at h
    obtain ⟨trL, hL, htr⟩ := performOperationsStage_ok env _ tr h
    obtain ⟨ha, -⟩ := deleteLoop_ok_all_added env paths _ _ hL
    have hpc := deleteLoop_performCount env paths
      { resolveCalls := [], addedItems := [], flagsSet := [deleteFlags], performCount := 0 }
    rw [hL] at hpc
    simp only at hpc
    subst htr
    exact ⟨by simp [hpc], by simpa using ha⟩
  · intro env paths i hi hb hcc hsf hprev hfail
    unfold delete_all_canonicalizedR
    simp only [hb, List.nil_append]
    rw [if_neg (by simp [hcc]), if_neg (by simp [hsf])]
    have hfst := deleteLoop_resolve_fail env paths
      { resolveCalls := [], addedItems := [], flagsSet := [deleteFlags], performCount := 0 }
      i hi hprev hfail
    have hpc := deleteLoop_performCount env paths
      { resolveCalls := [], addedItems := [], flagsSet := [deleteFlags], performCount := 0 }
    rcases hl : deleteLoop env paths
      { resolveCalls := [], addedItems := [], flagsSet := [deleteFlags], performCount := 0 }
      with ⟨res, trL⟩
    rw [hl] at hfst hpc
    simp only at hfst hpc
    subst hfst
    exact ⟨hpc, rfl⟩

/-- Witness for C3: on three concrete paths, a fully successful run adds
all three cleaned paths and executes once; with the second resolution
failing, execution never runs and the resolution error is reported. -/
theorem delete_all_one_batch_witness :
    ((delete_all_canonicalizedR envDeleteOk paths3).2.performCount = 1 ∧
      (delete_all_canonicalizedR envDeleteOk paths3).2.addedItems =
        paths3.map cleanPathBuf) ∧
    ((delete_all_canonicalizedR envDeleteFail2 paths3).2.performCount = 0 ∧
      (delete_all_canonicalizedR envDeleteFail2 paths3).1 =
        .error (mkFailErr "SHCreateItemFromParsingName" 0x80070002)) :=
  ⟨delete_all_one_batch.1 envDeleteOk paths3 _ rfl,
   delete_all_one_batch.2 envDeleteFail2 paths3 1 (by decide) rfl rfl rfl (by decide) (by decide)⟩

/-! ## Claim C8: the fixed non-interactive flag profile -/

/-- Claim C8: every batched request built by `delete_all_canonicalized`
receives exactly the flag word silent + no-confirmation + no-error-UI +
no-mkdir-confirmation + allow-undo + warn-on-permanent-delete: each
UI-suppression flag is contained in the word, the undo flag is contained,
and any run either never reaches `SetOperationFlags` or passes exactly this
word once. -/
theorem delete_flags_profile :
    deleteFlags = (FOF_SILENT ||| FOF_NOCONFIRMATION ||| FOF_NOERRORUI ||| FOF_NOCONFIRMMKDIR |||
        FOF_ALLOWUNDO ||| FOF_WANTNUKEWARNING) ∧
    deleteFlags &&& FOF_SILENT = FOF_SILENT ∧
    deleteFlags &&& FOF_NOCONFIRMATION = FOF_NOCONFIRMATION ∧
    deleteFlags &&& FOF_NOERRORUI = FOF_NOERRORUI ∧
    deleteFlags &&& FOF_NOCONFIRMMKDIR = FOF_NOCONFIRMMKDIR ∧
    deleteFlags &&& FOF_ALLOWUNDO = FOF_ALLOWUNDO ∧
    deleteFlags &&& FOF_WANTNUKEWARNING = FOF_WANTNUKEWARNING ∧
    ∀ (env : DeleteEnv) (paths : List (List Nat)),
      (delete_all_canonicalizedR env paths).2.flagsSet = [] ∨
      (delete_all_canonicalizedR env paths).2.flagsSet = [deleteFlags] := by
  refine ⟨by decide, by decide, by decide, by decide, by decide, by decide, by decide, ?_⟩
  intro env paths
  unfold delete_all_canonicalizedR
  rcases hb : bind_to_csidl env.bind with e | u
  · simp [hb]
  simp only [hb, List.nil_append]
  split_ifs
  · left; rfl
  · right; rfl
  right
  rw [(performOperationsStage_fields env _).2.2]
  have hfl := deleteLoop_flagsSet env paths
    { resolveCalls := [], addedItems := [], flagsSet := [deleteFlags], performCount := 0 }
  rw [hfl]

/-! ## Claim C7: purge_all / restore_all -/

/-- Counterexample for C7 as stated: calling `purge_all` (or `restore_all`)
does not return a `NotImplemented` error value through the normal error
channel — it panics via the `todo!` macro. -/
theorem purge_restore_counterexample :
    purge_all [] = .panicked "not yet implemented" ∧
    purge_all [] ≠ .ok (.error .NotImplemented) ∧
    restore_all [] = .panicked "not yet implemented" ∧
    restore_all [] ≠ .ok (.error .NotImplemented) := by
  refine ⟨rfl, by decide, rfl, by decide⟩

/-- Amended C7: for every input, `purge_all` and `restore_all` fail fast by
panicking with the `todo!` message "not yet implemented"; no error value —
in particular no `NotImplemented` value — is returned through the normal
error channel. -/
theorem purge_restore_fail_fast (items : List TrashItem) :
    purge_all items = .panicked "not yet implemented" ∧
    restore_all items = .panicked "not yet implemented" :=
  ⟨rfl, rfl⟩

end TrashWin
